import Mathlib

/-!
Verification of the PyCasMap construct-identification engine.

This file is a shallow embedding of `pycasmap/core.py` (data model, probe
derivation, lookup tables, streaming classifiers) together with theorems
settling the specification claims.  Nucleotide strings are modelled as
`List Char`; Python dictionaries keyed by strings are modelled as
association lists, Python sets as duplicate-free lists.
-/

set_option linter.unusedVariables false

/-- Nucleotide strings (Python `str`) are modelled as lists of characters. -/
abbrev Str := List Char

/-- `class Spacer`: a spacer sequence with construct and variant IDs. -/
structure Spacer where
  sequence : Str
  cid : ℕ
  vid : ℕ
deriving DecidableEq

instance : Inhabited Spacer := ⟨⟨[], 0, 0⟩⟩

/-- `class Constant`: a constant sequence with a position ID. -/
structure Constant where
  sequence : Str
  cid : ℕ
deriving DecidableEq

instance : Inhabited Constant := ⟨⟨[], 0⟩⟩

/-- `class Construct`: spacers, constants, and a construct ID.
`plexity` is `len(spacers)` as in the Python constructor. -/
structure Construct where
  spacers : List Spacer
  constants : List Constant
  construct_id : ℕ
deriving DecidableEq

instance : Inhabited Construct := ⟨⟨[], [], 0⟩⟩

def Construct.plexity (c : Construct) : ℕ := c.spacers.length

/-- `Construct.cid` property. -/
def Construct.cid (c : Construct) : ℕ := c.construct_id

/-- The character translation of `str.maketrans('ATGCatgc', 'TACGtacg')`:
the eight nucleotide letters are swapped, every other character is left
unchanged by `str.translate`. -/
def complementChar (ch : Char) : Char :=
  if ch = 'A' then 'T' else if ch = 'T' then 'A'
  else if ch = 'G' then 'C' else if ch = 'C' then 'G'
  else if ch = 'a' then 't' else if ch = 't' then 'a'
  else if ch = 'g' then 'c' else if ch = 'c' then 'g'
  else ch

/-- `Construct._reverse_complement`: translate then reverse (`[::-1]`). -/
def reverseComplement (s : Str) : Str := (s.map complementChar).reverse

/-- `Construct._build_sequence`: `for const, spacer in zip(constants, spacers):
seq += const.sequence + spacer.sequence`. -/
def buildSequence (constants : List Constant) (spacers : List Spacer) : Str :=
  ((constants.zip spacers).map (fun p => p.1.sequence ++ p.2.sequence)).flatten

/-- Python's `l[-t:]` on a list (for `t > 0`). -/
def takeLast (l : List α) (t : ℕ) : List α := l.drop (l.length - t)

/-- The local `take_count` of `get_r1_sequence`: 2 for 4-plex, 3 for
6-plex, 2 for 3-plex, `plexity // 2` otherwise. -/
def Construct.take_count (c : Construct) : ℕ :=
  if c.plexity = 4 then 2
  else if c.plexity = 6 then 3
  else if c.plexity = 3 then 2
  else c.plexity / 2

/-- `Construct.get_r1_sequence`: concatenate the first `take_count`
constant/spacer pairs. -/
def Construct.get_r1_sequence (c : Construct) : Str :=
  buildSequence (c.constants.take c.take_count) (c.spacers.take c.take_count)

/-- The spacer/constant slices taken by `get_r2_sequence`: the explicit
branches (plexity 4, 6, 3) slice with `[-take_count:]`, the general
branch with `[start_idx:]` where `start_idx = plexity - plexity // 2`. -/
def Construct.r2_slices (c : Construct) : List Spacer × List Constant :=
  if c.plexity = 4 then (takeLast c.spacers 2, takeLast c.constants 2)
  else if c.plexity = 6 then (takeLast c.spacers 3, takeLast c.constants 3)
  else if c.plexity = 3 then (takeLast c.spacers 2, takeLast c.constants 2)
  else (c.spacers.drop (c.plexity - c.plexity / 2), c.constants.drop (c.plexity - c.plexity / 2))

/-- `Construct.get_r2_sequence`: the reverse complement of the
concatenation of the sliced constant/spacer pairs. -/
def Construct.get_r2_sequence (c : Construct) : Str :=
  reverseComplement (buildSequence c.r2_slices.2 c.r2_slices.1)

/-- `Construct.sequence`: the full construct sequence. -/
def Construct.sequence (c : Construct) : Str := buildSequence c.constants c.spacers

/-- `KmerIter`: all windows `s[pos:pos+k]` for `pos + k ≤ len(s)`, in order. -/
def kmers (s : Str) (k : ℕ) : List Str :=
  (List.range (s.length + 1 - k)).map (fun i => (s.drop i).take k)

/-- Python `set.add`: duplicate-free insertion into a list modelling a set. -/
def setInsert (c : ℕ) (s : List ℕ) : List ℕ := if c ∈ s then s else c :: s

/-- The `r1_table` built by `build_constructs`: each construct inserts
`(r1_seq → cid)`; the dict of sets is modelled as a list of pairs, looked
up by scanning all entries. -/
def r1Table (lib : List Construct) : List (Str × ℕ) :=
  lib.map (fun c => (c.get_r1_sequence, c.construct_id))

def r2Table (lib : List Construct) : List (Str × ℕ) :=
  lib.map (fun c => (c.get_r2_sequence, c.construct_id))

/-- The match-set loop of `_find_matching_construct`: for every table
entry whose key occurs in the read (`if seq in r1_seq`), add its
construct ids to the set. -/
def matchTable (t : List (Str × ℕ)) (read : Str) : List ℕ :=
  t.foldr (fun p s => if p.1 <:+: read then setInsert p.2 s else s) []

/-- `PyCasMap._find_matching_construct`: intersect the R1 and R2 match
sets; return the sole element when the intersection is a singleton,
`None` when it is empty or ambiguous. -/
def findMatchingConstruct (t1 t2 : List (Str × ℕ)) (r1 r2 : Str) : Option ℕ :=
  let r1_matches := matchTable t1 r1
  let r2_matches := matchTable t2 r2
  let intersection := r1_matches.filter (fun c => c ∈ r2_matches)
  if intersection.length = 1 then intersection.head? else none

/-- `classify_pair` over a library: `_find_matching_construct` against the
tables built from the library's probes. -/
def classifyPair (lib : List Construct) (r1 r2 : Str) : Option ℕ :=
  findMatchingConstruct (r1Table lib) (r2Table lib) r1 r2

/-- Stable insertion sort, modelling Python's stable `list.sort`. -/
def insertSorted (le : α → α → Bool) (a : α) : List α → List α
  | [] => [a]
  | b :: t => if le a b then a :: b :: t else b :: insertSorted le a t

def sortBy (le : α → α → Bool) : List α → List α
  | [] => []
  | a :: t => insertSorted le a (sortBy le t)

/-- Keys of a Python dict in first-insertion order (`defaultdict`
grouping); the fuel argument (bounded by the list length) keeps the
recursion structural. -/
def firstKeysAux : ℕ → List ℕ → List ℕ
  | 0, _ => []
  | _, [] => []
  | fuel + 1, c :: rest => c :: firstKeysAux fuel (rest.filter (fun x => x ≠ c))

def firstKeys (l : List ℕ) : List ℕ := firstKeysAux l.length l

/-- Python dict lookup on an association list where a later binding for
the same key shadows an earlier one (dict assignment overwrites). -/
def dictGet [BEq α] (m : List (α × ℕ)) (k : α) : Option ℕ :=
  (m.reverse.find? (fun p => p.1 == k)).map (·.2)

/-- `class TupleTable`: spacer set, common spacer length, spacers per
construct, and the two ordered-tuple maps. -/
structure TupleTable where
  spacers : List Spacer
  spacer_set : List Str
  spacer_length : ℕ
  spacer_count : ℕ
  tuple_map_4 : List (List Str × ℕ)
  tuple_map_6 : List (List Str × ℕ)
deriving DecidableEq

/-- `len(spacers[0].sequence)` or 0 on an empty table. -/
def spacerLengthOf (spacers : List Spacer) : ℕ :=
  match spacers with
  | [] => 0
  | s :: _ => s.sequence.length

/-- The size of the first `defaultdict` group: the number of spacers
sharing the first spacer's construct id. -/
def spacerCountOf (spacers : List Spacer) : ℕ :=
  match spacers with
  | [] => 0
  | s0 :: _ => (spacers.filter (fun s => s.cid == s0.cid)).length

/-- One `defaultdict` group (all spacers of one construct, in input
order) sorted stably by `vid`. -/
def tupleGroup (spacers : List Spacer) (k : ℕ) : List Spacer :=
  sortBy (fun a b => decide (a.vid ≤ b.vid)) (spacers.filter (fun s => s.cid == k))

/-- The `tuple_map_4` of `TupleTable.__init__`: per group,
`tuple(sequences[:4]) → cid`, built only when `spacer_count == 4`. -/
def tupleMap4Of (spacers : List Spacer) : List (List Str × ℕ) :=
  if spacerCountOf spacers = 4 then
    (firstKeys (spacers.map (·.cid))).map
      (fun k => (((tupleGroup spacers k).map (·.sequence)).take 4, k))
  else []

/-- The `tuple_map_6` of `TupleTable.__init__`, built only when
`spacer_count == 6`. -/
def tupleMap6Of (spacers : List Spacer) : List (List Str × ℕ) :=
  if spacerCountOf spacers = 6 then
    (firstKeys (spacers.map (·.cid))).map
      (fun k => (((tupleGroup spacers k).map (·.sequence)).take 6, k))
  else []

/-- `TupleTable.__init__`: spacer set, common spacer length, the first
group's size as `spacer_count`, and the two tuple maps. -/
def tupleTableOf (spacers : List Spacer) : TupleTable :=
  ⟨spacers, spacers.map (·.sequence), spacerLengthOf spacers, spacerCountOf spacers,
   tupleMap4Of spacers, tupleMap6Of spacers⟩

def TupleTable.get_tuple_4 (tt : TupleTable) (k : List Str) : Option ℕ :=
  dictGet tt.tuple_map_4 k

def TupleTable.get_tuple_6 (tt : TupleTable) (k : List Str) : Option ℕ :=
  dictGet tt.tuple_map_6 k

/-- `PyCasMap._find_spacers_in_tuple_table`: walk the k-mers of the read
and keep those present in the spacer set, in discovery order. -/
def findSpacersInTupleTable (tt : TupleTable) (s : Str) : List Str :=
  (kmers s tt.spacer_length).filter (fun km => km ∈ tt.spacer_set)

/-- `PyCasMap._find_matching_tuple`: for `spacer_count == 4` and at least
two spacers found in each read, scan consecutive index pairs `(i, i+1)`
of the R1 list (outer loop) against pairs `(j, j+1)` of the R2 list
(inner loop) and return the first tuple-map hit; the 6-plex branch scans
consecutive triples; anything else returns `None`. -/
def findMatchingTuple (tt : TupleTable) (r1 r2 : Str) : Option ℕ :=
  let r1_spacers := findSpacersInTupleTable tt r1
  let r2_spacers := findSpacersInTupleTable tt r2
  if tt.spacer_count = 4 then
    if 2 ≤ r1_spacers.length ∧ 2 ≤ r2_spacers.length then
      (List.range (r1_spacers.length - 1)).findSome? (fun i =>
        (List.range (r2_spacers.length - 1)).findSome? (fun j =>
          tt.get_tuple_4 [r1_spacers.getD i [], r1_spacers.getD (i+1) [],
                          r2_spacers.getD j [], r2_spacers.getD (j+1) []]))
    else none
  else if tt.spacer_count = 6 then
    if 3 ≤ r1_spacers.length ∧ 3 ≤ r2_spacers.length then
      (List.range (r1_spacers.length - 2)).findSome? (fun i =>
        (List.range (r2_spacers.length - 2)).findSome? (fun j =>
          tt.get_tuple_6 [r1_spacers.getD i [], r1_spacers.getD (i+1) [], r1_spacers.getD (i+2) [],
                          r2_spacers.getD j [], r2_spacers.getD (j+1) [], r2_spacers.getD (j+2) []]))
    else none
  else none

/-- Specification-side scan order: the sliding windows `[l[i], l[i+1]]`
of consecutive positions, in ascending `i`. -/
def consecutivePairs (l : List Str) : List (List Str) :=
  (l.zip l.tail).map (fun p => [p.1, p.2])

/-- Specification-side scan order: sliding triples `[l[i], l[i+1], l[i+2]]`. -/
def consecutiveTriples (l : List Str) : List (List Str) :=
  ((l.zip l.tail).zip l.tail.tail).map (fun p => [p.1.1, p.1.2, p.2])

/-- Specification-side candidate list: all R1 windows (outer, ascending)
paired with all R2 windows (inner, ascending), concatenated. -/
def tupleCandidates (ws1 ws2 : List (List Str)) : List (List Str) :=
  ws1.flatMap (fun a => ws2.map (fun b => a ++ b))

/-- `build_constructs`' first test: `len(spacers) >= 6` and the first six
construct ids pairwise chained equal. -/
def first6SameCid : List Spacer → Bool
  | s0 :: s1 :: s2 :: s3 :: s4 :: s5 :: _ =>
      s0.cid == s1.cid && s1.cid == s2.cid && s2.cid == s3.cid &&
      s3.cid == s4.cid && s4.cid == s5.cid
  | _ => false

/-- `build_constructs`' second test: `len(spacers) >= 4` and the first
four construct ids chained equal. -/
def first4SameCid : List Spacer → Bool
  | s0 :: s1 :: s2 :: s3 :: _ =>
      s0.cid == s1.cid && s1.cid == s2.cid && s2.cid == s3.cid
  | _ => false

/-- The chunking loop of `build_constructs`: `enumerate(spacers[::n])`
yields `ceil(len/n)` indices; the guard `cid*n + n <= len(spacers)` keeps
only full chunks, each becoming a construct with the whole constants
list. -/
def buildChunks (spacers : List Spacer) (constants : List Constant) (n : ℕ) :
    List Construct :=
  (List.range ((spacers.length + n - 1) / n)).filterMap (fun cid =>
    if cid * n + n ≤ spacers.length then
      some ⟨(spacers.drop (cid * n)).take n, constants, cid⟩
    else none)

/-- `PyCasMap.build_constructs`: infer the per-construct spacer count
(6, else 4, else raise `ValueError`), then chunk. -/
def buildConstructs (spacers : List Spacer) (constants : List Constant) :
    Except String (List Construct) :=
  if first6SameCid spacers then .ok (buildChunks spacers constants 6)
  else if first4SameCid spacers then .ok (buildChunks spacers constants 4)
  else .error "Unable to determine spacer count per construct. Expected 4 or 6 spacers per construct."

/-- Specification-side: how many spacers at the front of a list carry
the given construct id. -/
def leadingRunAux (c : ℕ) : List Spacer → ℕ
  | [] => 0
  | s :: rest => if s.cid = c then 1 + leadingRunAux c rest else 0

/-- Specification-side: the length of the leading run of equal construct
ids in the (sorted) spacer list. -/
def leadingRun : List Spacer → ℕ
  | [] => 0
  | s0 :: rest => 1 + leadingRunAux s0.cid rest

/-- Specification-side probe window from the claim's words: the
left-to-right concatenation `constants[a] + spacers[a] + … +
constants[a+t-1] + spacers[a+t-1]`. -/
def probeWindow (c : Construct) (a t : ℕ) : Str :=
  ((List.range t).map (fun i =>
    (c.constants.getD (a + i) default).sequence ++
    (c.spacers.getD (a + i) default).sequence)).flatten

/-- Specification-side complement table, written from the spec's words:
A↔T and G↔C with case preserved; any other character passes through
unchanged. -/
def complementSpec (ch : Char) : Char :=
  match ch with
  | 'A' => 'T'
  | 'T' => 'A'
  | 'G' => 'C'
  | 'C' => 'G'
  | 'a' => 't'
  | 't' => 'a'
  | 'g' => 'c'
  | 'c' => 'g'
  | other => other

/-- `build` output (`PyCasMap.build_construct_sequences` record loop):
one FASTA record per construct, in library order. -/
def buildConstructSequences (cs : List Construct) : String :=
  String.join (cs.map (fun c =>
    ">cid_" ++ toString c.cid ++ "\n" ++ String.mk c.sequence ++ "\n"))

/-- One decimal digit, per Python `int()` on canonical numerals. -/
def digitVal? (ch : Char) : Option ℕ :=
  if '0' ≤ ch ∧ ch ≤ '9' then some (ch.toNat - '0'.toNat) else none

/-- Python `int(field)` restricted to canonical decimal naturals, as used
by the library's id columns; a non-numeric field is a `ValueError`. -/
def decNat? (s : Str) : Option ℕ :=
  match s with
  | [] => none
  | _ => s.foldl (fun acc ch => acc.bind (fun n => (digitVal? ch).map (fun d => n * 10 + d)))
      (some 0)

/-- The row loop of `PyCasMap.load_spacers`: rows with fewer than three
fields are skipped (`if len(row) >= 3`); `int()` on the id fields raises
on a non-numeric value, which aborts the load. -/
def parseSpacers : List (List Str) → Except String (List Spacer)
  | [] => .ok []
  | row :: rest =>
    if 3 ≤ row.length then
      match decNat? (row.getD 1 []), decNat? (row.getD 2 []) with
      | some cid, some vid =>
          (parseSpacers rest).map (fun l => ⟨row.getD 0 [], cid, vid⟩ :: l)
      | _, _ => .error "ValueError: invalid literal for int"
    else parseSpacers rest

/-- The row loop of `PyCasMap.load_constants`: rows with fewer than two
fields are skipped (`if len(row) >= 2`). -/
def parseConstants : List (List Str) → Except String (List Constant)
  | [] => .ok []
  | row :: rest =>
    if 2 ≤ row.length then
      match decNat? (row.getD 1 []) with
      | some cid => (parseConstants rest).map (fun l => ⟨row.getD 0 [], cid⟩ :: l)
      | none => .error "ValueError: invalid literal for int"
    else parseConstants rest

/-- `PyCasMap.load_spacers`: parse, then sort by `(cid, vid)`. -/
def load_spacers (rows : List (List Str)) : Except String (List Spacer) :=
  (parseSpacers rows).map
    (sortBy (fun a b => decide (a.cid < b.cid) || (a.cid == b.cid && decide (a.vid ≤ b.vid))))

/-- `PyCasMap.load_constants`: parse, then sort by position id. -/
def load_constants (rows : List (List Str)) : Except String (List Constant) :=
  (parseConstants rows).map (sortBy (fun a b => decide (a.cid ≤ b.cid)))

/-- `defaultdict(int)` increment, insertion order preserved. -/
def bump (counts : List (ℕ × ℕ)) (c : ℕ) : List (ℕ × ℕ) :=
  if counts.any (fun p => p.1 == c) then
    counts.map (fun p => if p.1 == c then (p.1, p.2 + 1) else p)
  else counts ++ [(c, 1)]

/-- `PyCasMap.process_constructs`: walk the zipped line streams counting
every line pair in `total_reads`, classify the sequence lines
(`total % 4 == 2`), and afterwards print the mapping-rate diagnostic
`mapped / (total // 4)` — Python raises `ZeroDivisionError` when the
divisor `total // 4` is zero. -/
def processConstructs (lib : List Construct) (r1Lines r2Lines : List Str) :
    Except String (List (ℕ × ℕ)) :=
  let step := fun (st : ℕ × ℕ × List (ℕ × ℕ)) (p : Str × Str) =>
    let total := st.1 + 1
    if total % 4 = 2 then
      match findMatchingConstruct (r1Table lib) (r2Table lib) p.1 p.2 with
      | some cid => (total, st.2.1 + 1, bump st.2.2 cid)
      | none => (total, st.2.1, st.2.2)
    else (total, st.2.1, st.2.2)
  let res := (r1Lines.zip r2Lines).foldl step (0, 0, [])
  if res.1 / 4 = 0 then .error "ZeroDivisionError: division by zero"
  else .ok res.2.2

/-- `PyCasMap.process_tuples`: same streaming loop with the tuple
classifier, and the same unguarded mapping-rate division. -/
def processTuples (tt : TupleTable) (r1Lines r2Lines : List Str) :
    Except String (List (ℕ × ℕ)) :=
  let step := fun (st : ℕ × ℕ × List (ℕ × ℕ)) (p : Str × Str) =>
    let total := st.1 + 1
    if total % 4 = 2 then
      match findMatchingTuple tt p.1 p.2 with
      | some cid => (total, st.2.1 + 1, bump st.2.2 cid)
      | none => (total, st.2.1, st.2.2)
    else (total, st.2.1, st.2.2)
  let res := (r1Lines.zip r2Lines).foldl step (0, 0, [])
  if res.1 / 4 = 0 then .error "ZeroDivisionError: division by zero"
  else .ok res.2.2

/-! Concrete inputs used by witnesses and counterexamples. -/

/-- Scenario A spacer table (4-plex, one construct). -/
def scenarioASpacers : List Spacer :=
  [⟨"AAAAAA".toList, 0, 0⟩, ⟨"CCCCCC".toList, 0, 1⟩,
   ⟨"GGGGGG".toList, 0, 2⟩, ⟨"TTTTTT".toList, 0, 3⟩]

/-- Scenario A constants table. -/
def scenarioAConstants : List Constant :=
  [⟨"ACAC".toList, 0⟩, ⟨"CAGT".toList, 1⟩, ⟨"GTGT".toList, 2⟩, ⟨"TGTG".toList, 3⟩]

/-- A 5-plex construct (spacer length 2, constant length 1). -/
def fivePlexConstruct : Construct :=
  ⟨[⟨"AA".toList, 0, 0⟩, ⟨"CC".toList, 0, 1⟩, ⟨"GG".toList, 0, 2⟩,
    ⟨"TT".toList, 0, 3⟩, ⟨"AC".toList, 0, 4⟩],
   [⟨"A".toList, 0⟩, ⟨"C".toList, 1⟩, ⟨"G".toList, 2⟩, ⟨"T".toList, 3⟩,
    ⟨"A".toList, 4⟩], 0⟩

/-- A sorted 3-plex spacer list: two constructs of three spacers each. -/
def threePlexSpacers : List Spacer :=
  [⟨"AAAAAA".toList, 0, 0⟩, ⟨"CCCCCC".toList, 0, 1⟩, ⟨"GGGGGG".toList, 0, 2⟩,
   ⟨"TTTTTT".toList, 1, 0⟩, ⟨"ACACAC".toList, 1, 1⟩, ⟨"AGAGAG".toList, 1, 2⟩]

/-- Nine spacers of a 4-plex layout: the total count 9 is not a multiple
of 4; the last spacer does not fill a chunk. -/
def nineSpacers : List Spacer :=
  [⟨"AAAAAA".toList, 0, 0⟩, ⟨"CCCCCC".toList, 0, 1⟩, ⟨"GGGGGG".toList, 0, 2⟩,
   ⟨"TTTTTT".toList, 0, 3⟩, ⟨"ACACAC".toList, 1, 0⟩, ⟨"AGAGAG".toList, 1, 1⟩,
   ⟨"ATATAT".toList, 1, 2⟩, ⟨"CGCGCG".toList, 1, 3⟩, ⟨"CTCTCT".toList, 2, 0⟩]

/-- A 5-plex spacer list (one construct of five spacers). -/
def fivePlexSpacers : List Spacer :=
  [⟨"AA".toList, 0, 0⟩, ⟨"CC".toList, 0, 1⟩, ⟨"GG".toList, 0, 2⟩,
   ⟨"TT".toList, 0, 3⟩, ⟨"AC".toList, 0, 4⟩]

/-- A 4-plex spacer list for the tuple-classifier examples. -/
def fourPlexSpacers : List Spacer :=
  [⟨"AA".toList, 0, 0⟩, ⟨"CC".toList, 0, 1⟩, ⟨"GG".toList, 0, 2⟩, ⟨"TT".toList, 0, 3⟩]

/-- A 4-plex construct with spacer length 2 and constant length 1. -/
def exampleConstruct : Construct :=
  ⟨fourPlexSpacers,
   [⟨"A".toList, 0⟩, ⟨"C".toList, 1⟩, ⟨"G".toList, 2⟩, ⟨"T".toList, 3⟩], 0⟩

/-- A one-construct library whose probes are unique. -/
def exampleLib : List Construct := [exampleConstruct]

/-- One complete FASTQ record (four lines) whose sequence line contains
spacers 0 and 1 of `fourPlexSpacers`. -/
def exampleFastqR1 : List Str :=
  ["@r0".toList, "AACC".toList, "+".toList, "IIII".toList]

/-- The mate record: sequence line contains spacers 2 and 3. -/
def exampleFastqR2 : List Str :=
  ["@r0".toList, "GGTT".toList, "+".toList, "IIII".toList]

/-! ## Helper lemmas -/

lemma complementChar_eq_spec (ch : Char) : complementChar ch = complementSpec ch := by
  unfold complementSpec
  split <;> first
    | decide
    | (unfold complementChar; split_ifs <;> simp_all)

lemma mem_setInsert (c a : ℕ) (s : List ℕ) : c ∈ setInsert a s ↔ c = a ∨ c ∈ s := by
  unfold setInsert
  split_ifs with h
  · constructor
    · exact fun hc => Or.inr hc
    · rintro (rfl | hc)
      · exact h
      · exact hc
  · exact List.mem_cons

lemma nodup_setInsert (a : ℕ) (s : List ℕ) (h : s.Nodup) : (setInsert a s).Nodup := by
  unfold setInsert
  split_ifs with ha
  · exact h
  · exact List.nodup_cons.mpr ⟨ha, h⟩

lemma matchTable_cons (p : Str × ℕ) (t : List (Str × ℕ)) (read : Str) :
    matchTable (p :: t) read =
      if p.1 <:+: read then setInsert p.2 (matchTable t read) else matchTable t read := rfl

lemma mem_matchTable (t : List (Str × ℕ)) (read : Str) (c : ℕ) :
    c ∈ matchTable t read ↔ ∃ p ∈ t, p.2 = c ∧ p.1 <:+: read := by
  induction t with
  | nil => simp [matchTable]
  | cons p rest ih =>
    rw [matchTable_cons]
    split_ifs with h
    · rw [mem_setInsert, ih]
      constructor
      · rintro (rfl | ⟨q, hq, rfl, hinf⟩)
        · exact ⟨p, List.mem_cons_self p rest, rfl, h⟩
        · exact ⟨q, List.mem_cons_of_mem p hq, rfl, hinf⟩
      · rintro ⟨q, hq, rfl, hinf⟩
        rcases List.mem_cons.mp hq with rfl | hq'
        · exact Or.inl rfl
        · exact Or.inr ⟨q, hq', rfl, hinf⟩
    · rw [ih]
      constructor
      · rintro ⟨q, hq, rfl, hinf⟩
        exact ⟨q, List.mem_cons_of_mem p hq, rfl, hinf⟩
      · rintro ⟨q, hq, rfl, hinf⟩
        rcases List.mem_cons.mp hq with rfl | hq'
        · exact absurd hinf h
        · exact ⟨q, hq', rfl, hinf⟩

lemma nodup_matchTable (t : List (Str × ℕ)) (read : Str) : (matchTable t read).Nodup := by
  induction t with
  | nil => exact List.nodup_nil
  | cons p rest ih =>
    rw [matchTable_cons]
    split_ifs with h
    · exact nodup_setInsert _ _ ih
    · exact ih

lemma eq_singleton_of_nodup (l : List ℕ) (c : ℕ) (hnd : l.Nodup) (hc : c ∈ l)
    (hall : ∀ x ∈ l, x = c) : l = [c] := by
  cases l with
  | nil => cases hc
  | cons a t =>
    have ha : a = c := hall a (List.mem_cons_self a t)
    subst ha
    cases t with
    | nil => rfl
    | cons b t' =>
      have hb : b = a := hall b (List.mem_cons_of_mem a (List.mem_cons_self b t'))
      have := (List.nodup_cons.mp hnd).1
      exact absurd (hb ▸ List.mem_cons_self b t') this

/-- The singleton-intersection rule of `_find_matching_construct`, stated
over the raw tables. -/
lemma findMatchingConstruct_eq_some_iff (t1 t2 : List (Str × ℕ)) (r1 r2 : Str) (c : ℕ) :
    findMatchingConstruct t1 t2 r1 r2 = some c ↔
      ((∃ p ∈ t1, p.2 = c ∧ p.1 <:+: r1) ∧ (∃ p ∈ t2, p.2 = c ∧ p.1 <:+: r2)) ∧
      ∀ c', (∃ p ∈ t1, p.2 = c' ∧ p.1 <:+: r1) → (∃ p ∈ t2, p.2 = c' ∧ p.1 <:+: r2) →
        c' = c := by
  have hmem : ∀ x, x ∈ (matchTable t1 r1).filter (fun c => c ∈ matchTable t2 r2) ↔
      (x ∈ matchTable t1 r1 ∧ x ∈ matchTable t2 r2) := by
    intro x
    simp [List.mem_filter]
  have hnd : ((matchTable t1 r1).filter (fun c => c ∈ matchTable t2 r2)).Nodup :=
    (nodup_matchTable t1 r1).filter _
  simp only [← mem_matchTable]
  show (if ((matchTable t1 r1).filter (fun c => c ∈ matchTable t2 r2)).length = 1 then
      ((matchTable t1 r1).filter (fun c => c ∈ matchTable t2 r2)).head? else none) = some c ↔ _
  constructor
  · intro h
    split_ifs at h with hlen
    · obtain ⟨a, ha⟩ := List.length_eq_one.mp hlen
      rw [ha] at h
      have hac : a = c := by simpa using h
      subst hac
      have hc : a ∈ (matchTable t1 r1).filter (fun c => c ∈ matchTable t2 r2) := by
        rw [ha]; exact List.mem_cons_self a []
      refine ⟨(hmem a).mp hc, ?_⟩
      intro c' h1 h2
      have : c' ∈ (matchTable t1 r1).filter (fun c => c ∈ matchTable t2 r2) :=
        (hmem c').mpr ⟨h1, h2⟩
      rw [ha] at this
      simpa using this
  · rintro ⟨⟨h1, h2⟩, huniq⟩
    have hc : c ∈ (matchTable t1 r1).filter (fun c => c ∈ matchTable t2 r2) :=
      (hmem c).mpr ⟨h1, h2⟩
    have hall : ∀ x ∈ (matchTable t1 r1).filter (fun c => c ∈ matchTable t2 r2), x = c := by
      intro x hx
      obtain ⟨hx1, hx2⟩ := (hmem x).mp hx
      exact huniq x hx1 hx2
    have hsing := eq_singleton_of_nodup _ c hnd hc hall
    rw [hsing]
    rfl

lemma buildSequence_nil_left (ss : List Spacer) : buildSequence [] ss = [] := rfl

lemma buildSequence_nil_right (cs : List Constant) : buildSequence cs [] = [] := by
  simp [buildSequence]

lemma buildSequence_cons (k : Constant) (cs : List Constant) (s : Spacer) (ss : List Spacer) :
    buildSequence (k :: cs) (s :: ss) = (k.sequence ++ s.sequence) ++ buildSequence cs ss := by
  simp [buildSequence]

lemma buildSequence_length (cs : List Constant) (ss : List Spacer) (Lc Ls : ℕ)
    (hc : ∀ k ∈ cs, k.sequence.length = Lc) (hs : ∀ s ∈ ss, s.sequence.length = Ls) :
    (buildSequence cs ss).length = min cs.length ss.length * (Lc + Ls) := by
  induction cs generalizing ss with
  | nil => simp [buildSequence_nil_left]
  | cons k cs ih =>
    cases ss with
    | nil => simp [buildSequence_nil_right]
    | cons s ss =>
      rw [buildSequence_cons]
      simp only [List.length_append, List.length_cons]
      rw [ih ss (fun x hx => hc x (List.mem_cons_of_mem _ hx))
          (fun x hx => hs x (List.mem_cons_of_mem _ hx)),
        hc k (List.mem_cons_self _ _), hs s (List.mem_cons_self _ _),
        Nat.succ_min_succ]
      simp only [Nat.succ_eq_add_one]
      ring

lemma revComp_length (s : Str) : (reverseComplement s).length = s.length := by
  simp [reverseComplement]

/-- The source's `take_count` (2/3/2/`P // 2`) collapses to
`P // 2` with the single exception of plexity 3, where it is 2. -/
lemma take_count_eq (c : Construct) (P : ℕ) (hsp : c.spacers.length = P) :
    c.take_count = if P = 3 then 2 else P / 2 := by
  unfold Construct.take_count Construct.plexity
  rw [hsp]
  split_ifs <;> omega

lemma get_r1_sequence_length (c : Construct) (P Lc Ls : ℕ)
    (hsp : c.spacers.length = P) (hco : c.constants.length = P)
    (hLs : ∀ s ∈ c.spacers, s.sequence.length = Ls)
    (hLc : ∀ k ∈ c.constants, k.sequence.length = Lc) :
    c.get_r1_sequence.length = (if P = 3 then 2 else P / 2) * (Lc + Ls) := by
  unfold Construct.get_r1_sequence
  rw [buildSequence_length _ _ Lc Ls (fun k hk => hLc k (List.take_subset _ _ hk))
      (fun s hs => hLs s (List.take_subset _ _ hs))]
  rw [take_count_eq c P hsp]
  simp only [List.length_take, hsp, hco]
  have ht : (if P = 3 then 2 else P / 2) ≤ P := by split_ifs <;> omega
  rw [Nat.min_self, Nat.min_eq_left ht]

lemma get_r2_sequence_length (c : Construct) (P Lc Ls : ℕ)
    (hsp : c.spacers.length = P) (hco : c.constants.length = P)
    (hLs : ∀ s ∈ c.spacers, s.sequence.length = Ls)
    (hLc : ∀ k ∈ c.constants, k.sequence.length = Lc) :
    c.get_r2_sequence.length = (if P = 3 then 2 else P / 2) * (Lc + Ls) := by
  have hdrop : ∀ (a : ℕ),
      (buildSequence (c.constants.drop a) (c.spacers.drop a)).length
        = (P - a) * (Lc + Ls) := by
    intro a
    rw [buildSequence_length _ _ Lc Ls (fun k hk => hLc k (List.drop_subset _ _ hk))
        (fun s hs => hLs s (List.drop_subset _ _ hs))]
    simp [hsp, hco]
  unfold Construct.get_r2_sequence Construct.r2_slices Construct.plexity takeLast
  rw [revComp_length, hsp, hco]
  by_cases h4 : P = 4
  · rw [if_pos h4]
    dsimp only
    rw [hdrop]
    subst h4
    norm_num
  · rw [if_neg h4]
    by_cases h6 : P = 6
    · rw [if_pos h6]
      dsimp only
      rw [hdrop]
      subst h6
      norm_num
    · rw [if_neg h6]
      by_cases h3 : P = 3
      · rw [if_pos h3]
        dsimp only
        rw [hdrop]
        subst h3
        norm_num
      · rw [if_neg h3]
        dsimp only
        rw [hdrop, if_neg h3]
        congr 1
        omega

/-- Claim C3: `classify_pair` returns `c` exactly when some construct
with id `c` has its R1 probe inside the R1 read and its R2 probe inside
the R2 read, and every construct id matching both reads equals `c`;
an empty or ambiguous intersection yields no match (a plain `None`, so
processing continues). -/
theorem classify_pair_singleton_intersection (lib : List Construct) (r1 r2 : Str) (c : ℕ) :
    classifyPair lib r1 r2 = some c ↔
      ((∃ C ∈ lib, C.construct_id = c ∧ C.get_r1_sequence <:+: r1) ∧
       (∃ C ∈ lib, C.construct_id = c ∧ C.get_r2_sequence <:+: r2)) ∧
      ∀ c', (∃ C ∈ lib, C.construct_id = c' ∧ C.get_r1_sequence <:+: r1) →
            (∃ C ∈ lib, C.construct_id = c' ∧ C.get_r2_sequence <:+: r2) → c' = c := by
  rw [classifyPair, findMatchingConstruct_eq_some_iff]
  simp only [r1Table, r2Table, List.mem_map, exists_exists_and_eq_and]

/-- Claim C4: in a library whose constructs all share the same plexity,
spacer length and constant length, a construct whose two probes are
unique is recovered by `classify_pair` from the synthesized read pair
made of its own probes. -/
theorem classify_pair_unique_probes (lib : List Construct) (C : Construct) (P Lc Ls : ℕ)
    (hC : C ∈ lib)
    (hplex : ∀ D ∈ lib, D.spacers.length = P ∧ D.constants.length = P)
    (hLs : ∀ D ∈ lib, ∀ s ∈ D.spacers, s.sequence.length = Ls)
    (hLc : ∀ D ∈ lib, ∀ k ∈ D.constants, k.sequence.length = Lc)
    (huniq1 : ∀ D ∈ lib, D.get_r1_sequence = C.get_r1_sequence →
      D.construct_id = C.construct_id)
    (huniq2 : ∀ D ∈ lib, D.get_r2_sequence = C.get_r2_sequence →
      D.construct_id = C.construct_id) :
    classifyPair lib C.get_r1_sequence C.get_r2_sequence = some C.construct_id := by
  have hlen1 : ∀ D ∈ lib, D.get_r1_sequence.length = C.get_r1_sequence.length := by
    intro D hD
    rw [get_r1_sequence_length D P Lc Ls (hplex D hD).1 (hplex D hD).2 (hLs D hD) (hLc D hD),
      get_r1_sequence_length C P Lc Ls (hplex C hC).1 (hplex C hC).2 (hLs C hC) (hLc C hC)]
  have hlen2 : ∀ D ∈ lib, D.get_r2_sequence.length = C.get_r2_sequence.length := by
    intro D hD
    rw [get_r2_sequence_length D P Lc Ls (hplex D hD).1 (hplex D hD).2 (hLs D hD) (hLc D hD),
      get_r2_sequence_length C P Lc Ls (hplex C hC).1 (hplex C hC).2 (hLs C hC) (hLc C hC)]
  rw [classifyPair, findMatchingConstruct_eq_some_iff]
  refine ⟨⟨?_, ?_⟩, ?_⟩
  · exact ⟨(C.get_r1_sequence, C.construct_id), List.mem_map.mpr ⟨C, hC, rfl⟩, rfl,
      List.infix_refl _⟩
  · exact ⟨(C.get_r2_sequence, C.construct_id), List.mem_map.mpr ⟨C, hC, rfl⟩, rfl,
      List.infix_refl _⟩
  · rintro c' ⟨p, hp, rfl, hinf1⟩ ⟨q, hq, hq2, hinf2⟩
    obtain ⟨D, hD, rfl⟩ := List.mem_map.mp hp
    exact huniq1 D hD (hinf1.eq_of_length (hlen1 D hD))

/-- Claim C4 witness: the single-construct library recovers construct 0
from its own probe pair. -/
theorem classify_pair_unique_probes_witness :
    classifyPair exampleLib exampleConstruct.get_r1_sequence
      exampleConstruct.get_r2_sequence = some 0 :=
  classify_pair_unique_probes exampleLib exampleConstruct 4 1 2 (by decide) (by decide)
    (by decide) (by decide) (by decide) (by decide)

lemma findSome?_congr (l : List α) (f g : α → Option γ) (h : ∀ a ∈ l, f a = g a) :
    l.findSome? f = l.findSome? g := by
  induction l with
  | nil => rfl
  | cons a t ih =>
    rw [List.findSome?_cons, List.findSome?_cons, h a (List.mem_cons_self a t),
      ih (fun x hx => h x (List.mem_cons_of_mem a hx))]

lemma findSome?_flatMap (l : List α) (g : α → List β) (f : β → Option γ) :
    (l.flatMap g).findSome? f = l.findSome? (fun a => (g a).findSome? f) := by
  induction l with
  | nil => rfl
  | cons a t ih =>
    rw [List.flatMap_cons, List.findSome?_append, ih, List.findSome?_cons]
    cases h : (g a).findSome? f <;> simp [h, Option.or]

lemma findSome?_range_getD (l : List α) (d : α) (f : α → Option γ) :
    (List.range l.length).findSome? (fun i => f (l.getD i d)) = l.findSome? f := by
  induction l with
  | nil => rfl
  | cons a t ih =>
    rw [List.length_cons, List.range_succ_eq_map, List.findSome?_cons, List.findSome?_map]
    have hcomp : ((fun i => f ((a :: t).getD i d)) ∘ (· + 1)) = fun i => f (t.getD i d) := by
      funext i
      simp [List.getD_cons_succ]
    rw [hcomp, ih, List.findSome?_cons]
    simp [List.getD_cons_zero]

lemma consecutivePairs_length (l : List Str) :
    (consecutivePairs l).length = l.length - 1 := by
  simp [consecutivePairs, List.length_zip, List.length_tail]

lemma consecutivePairs_getD (l : List Str) (i : ℕ) (h : i + 1 < l.length) :
    (consecutivePairs l).getD i [] = [l.getD i [], l.getD (i+1) []] := by
  have hlen : i < (consecutivePairs l).length := by rw [consecutivePairs_length]; omega
  rw [List.getD_eq_getElem _ _ hlen,
    List.getD_eq_getElem _ _ (show i < l.length by omega), List.getD_eq_getElem _ _ h]
  simp [consecutivePairs, List.getElem_zip, List.getElem_tail]

lemma consecutiveTriples_length (l : List Str) :
    (consecutiveTriples l).length = l.length - 2 := by
  simp [consecutiveTriples, List.length_zip, List.length_tail]
  omega

lemma consecutiveTriples_getD (l : List Str) (i : ℕ) (h : i + 2 < l.length) :
    (consecutiveTriples l).getD i [] = [l.getD i [], l.getD (i+1) [], l.getD (i+2) []] := by
  have hlen : i < (consecutiveTriples l).length := by rw [consecutiveTriples_length]; omega
  rw [List.getD_eq_getElem _ _ hlen,
    List.getD_eq_getElem _ _ (show i < l.length by omega),
    List.getD_eq_getElem _ _ (show i + 1 < l.length by omega), List.getD_eq_getElem _ _ h]
  simp [consecutiveTriples, List.getElem_zip, List.getElem_tail]

lemma findSome?_range_pairs (s : List Str) (f : List Str → Option γ) :
    (List.range (s.length - 1)).findSome? (fun i => f [s.getD i [], s.getD (i+1) []]) =
      (consecutivePairs s).findSome? f := by
  rw [← findSome?_range_getD (consecutivePairs s) [] f, consecutivePairs_length]
  refine findSome?_congr _ _ _ (fun i hi => ?_)
  rw [consecutivePairs_getD s i (by have := List.mem_range.mp hi; omega)]

lemma findSome?_range_triples (s : List Str) (f : List Str → Option γ) :
    (List.range (s.length - 2)).findSome?
        (fun i => f [s.getD i [], s.getD (i+1) [], s.getD (i+2) []]) =
      (consecutiveTriples s).findSome? f := by
  rw [← findSome?_range_getD (consecutiveTriples s) [] f, consecutiveTriples_length]
  refine findSome?_congr _ _ _ (fun i hi => ?_)
  rw [consecutiveTriples_getD s i (by have := List.mem_range.mp hi; omega)]

lemma nested_pairs_scan (s1 s2 : List Str) (g : List Str → Option ℕ) :
    (List.range (s1.length - 1)).findSome? (fun i =>
      (List.range (s2.length - 1)).findSome? (fun j =>
        g [s1.getD i [], s1.getD (i+1) [], s2.getD j [], s2.getD (j+1) []])) =
    (tupleCandidates (consecutivePairs s1) (consecutivePairs s2)).findSome? g := by
  rw [tupleCandidates, findSome?_flatMap, ← findSome?_range_pairs s1]
  refine findSome?_congr _ _ _ (fun i hi => ?_)
  rw [List.findSome?_map, ← findSome?_range_pairs s2]
  exact findSome?_congr _ _ _ (fun j hj => rfl)

lemma nested_triples_scan (s1 s2 : List Str) (g : List Str → Option ℕ) :
    (List.range (s1.length - 2)).findSome? (fun i =>
      (List.range (s2.length - 2)).findSome? (fun j =>
        g [s1.getD i [], s1.getD (i+1) [], s1.getD (i+2) [],
           s2.getD j [], s2.getD (j+1) [], s2.getD (j+2) []])) =
    (tupleCandidates (consecutiveTriples s1) (consecutiveTriples s2)).findSome? g := by
  rw [tupleCandidates, findSome?_flatMap, ← findSome?_range_triples s1]
  refine findSome?_congr _ _ _ (fun i hi => ?_)
  rw [List.findSome?_map, ← findSome?_range_triples s2]
  exact findSome?_congr _ _ _ (fun j hj => rfl)

/-- Claim C5: the tuple classifier, under the 4-plex table and the
precondition of at least two spacers found per read, scans exactly the
candidate list of consecutive R1 pairs (outer, ascending) against
consecutive R2 pairs (inner, ascending) and returns the first tuple-map
hit; the 6-plex branch does the same with sliding triples under the
at-least-three precondition; unmet preconditions yield no match. -/
theorem find_matching_tuple_scan_order (tt : TupleTable) (r1 r2 : Str) :
    (tt.spacer_count = 4 →
      findMatchingTuple tt r1 r2 =
        if 2 ≤ (findSpacersInTupleTable tt r1).length ∧
           2 ≤ (findSpacersInTupleTable tt r2).length then
          (tupleCandidates (consecutivePairs (findSpacersInTupleTable tt r1))
            (consecutivePairs (findSpacersInTupleTable tt r2))).findSome? tt.get_tuple_4
        else none) ∧
    (tt.spacer_count = 6 →
      findMatchingTuple tt r1 r2 =
        if 3 ≤ (findSpacersInTupleTable tt r1).length ∧
           3 ≤ (findSpacersInTupleTable tt r2).length then
          (tupleCandidates (consecutiveTriples (findSpacersInTupleTable tt r1))
            (consecutiveTriples (findSpacersInTupleTable tt r2))).findSome? tt.get_tuple_6
        else none) ∧
    (tt.spacer_count ≠ 4 → tt.spacer_count ≠ 6 → findMatchingTuple tt r1 r2 = none) := by
  refine ⟨?_, ?_, ?_⟩
  · intro h4
    unfold findMatchingTuple
    rw [if_pos h4]
    by_cases hg : 2 ≤ (findSpacersInTupleTable tt r1).length ∧
        2 ≤ (findSpacersInTupleTable tt r2).length
    · rw [if_pos hg, if_pos hg, nested_pairs_scan]
    · rw [if_neg hg, if_neg hg]
  · intro h6
    unfold findMatchingTuple
    rw [if_neg (by omega : ¬ tt.spacer_count = 4), if_pos h6]
    by_cases hg : 3 ≤ (findSpacersInTupleTable tt r1).length ∧
        3 ≤ (findSpacersInTupleTable tt r2).length
    · rw [if_pos hg, if_pos hg, nested_triples_scan]
    · rw [if_neg hg, if_neg hg]
  · intro h4 h6
    unfold findMatchingTuple
    rw [if_neg h4, if_neg h6]

/-- Claim C5 witness: on the concrete 4-plex table, the scan of the read
pair `(AACC, GGTT)` finds construct 0. -/
theorem find_matching_tuple_scan_order_witness :
    findMatchingTuple (tupleTableOf fourPlexSpacers) "AACC".toList "GGTT".toList
      = some 0 := by
  have h := (find_matching_tuple_scan_order (tupleTableOf fourPlexSpacers)
    "AACC".toList "GGTT".toList).1 (by decide)
  rw [h]
  decide

/-! ## Claim theorems -/

/-- Claim C7, counterexample: `_reverse_complement` does not signal an
error on a character outside `{A,C,G,T,a,c,g,t}`; on the input `"AN"` it
returns the value `"NT"`, passing the invalid character `N` through
unchanged. -/
theorem reverseComplement_invalid_char_no_error :
    reverseComplement "AN".toList = "NT".toList ∧ 'N' ∈ reverseComplement "AN".toList := by
  decide

/-- Claim C7 (amended): `_reverse_complement` returns a string of the
same length that is the reverse of the input mapped through the
complement table (A↔T, G↔C, case preserved); characters outside the
eight nucleotide letters are passed through unchanged rather than being
an error. -/
theorem reverseComplement_spec (s : Str) :
    (reverseComplement s).length = s.length ∧
    reverseComplement s = s.reverse.map complementSpec := by
  constructor
  · simp [reverseComplement]
  · simp only [reverseComplement, ← List.map_reverse]
    exact List.map_congr_left (fun ch _ => complementChar_eq_spec ch)

/-- Claim C10: on two empty FASTQ streams both streaming loops process
zero line pairs, and the mapping-rate diagnostic divides by
`total_reads // 4 == 0`, raising `ZeroDivisionError` instead of
returning the (empty) counter. -/
theorem process_empty_streams_division_by_zero (lib : List Construct) (tt : TupleTable) :
    processConstructs lib [] [] = .error "ZeroDivisionError: division by zero" ∧
    processTuples tt [] [] = .error "ZeroDivisionError: division by zero" := by
  refine ⟨?_, ?_⟩ <;> simp [processConstructs, processTuples]

/-- Claim C8: the core FASTA builder on the Scenario A library emits
exactly one record, `>cid_0` followed by the full construct sequence
(the concatenation of all four constant/spacer pairs, no reverse
complement, no trimming).  (The `build` CLI subcommand itself crashes
before writing: `__main__.py` calls `construct.cid()` although `cid` is
a property, a `TypeError` on every nonempty library.) -/
theorem build_scenarioA_fasta :
    (buildConstructs scenarioASpacers scenarioAConstants).toOption.map buildConstructSequences
      = some ">cid_0\nACACAAAAAACAGTCCCCCCGTGTGGGGGGTGTGTTTTTT\n" := by
  decide

/-- Claim C2, counterexample: a sorted spacer list whose leading run has
length 3 (two 3-plex constructs) makes `build_constructs` raise
`ValueError` although the claim requires plexity 3 to be accepted; and a
spacer list of 9 spacers whose leading run has length 4 builds 2
constructs without any error although 9 is not a multiple of 4. -/
theorem buildConstructs_three_plex_rejected :
    (buildConstructs threePlexSpacers scenarioAConstants).toOption = none ∧
    (buildConstructs nineSpacers scenarioAConstants).toOption.map List.length = some 2 := by
  decide

/-- Claim C6, counterexample: on a 5-plex library the `TupleTable` is
built with both tuple maps empty and no error, and the tuples command's
streaming loop completes normally (returning an empty counter) on a
well-formed record pair — no `UnsupportedOperationError` is signalled
anywhere. -/
theorem tupleTable_five_plex_no_error :
    (tupleTableOf fivePlexSpacers).spacer_count = 5 ∧
    (tupleTableOf fivePlexSpacers).tuple_map_4 = [] ∧
    (tupleTableOf fivePlexSpacers).tuple_map_6 = [] ∧
    (processTuples (tupleTableOf fivePlexSpacers) exampleFastqR1 exampleFastqR2).toOption
      = some [] := by
  decide

/-- Claim C6 (amended): the tuple maps are non-empty only when the
per-construct spacer count is 4 or 6; for any other plexity the table is
still built — with both maps empty and no error — and the tuple
classifier returns no match on every read pair, so the tuples and
describe operations complete normally instead of signalling an
unsupported-plexity error. -/
theorem tuple_index_other_plexity_silent (spacers : List Spacer)
    (h4 : (tupleTableOf spacers).spacer_count ≠ 4)
    (h6 : (tupleTableOf spacers).spacer_count ≠ 6) :
    (tupleTableOf spacers).tuple_map_4 = [] ∧
    (tupleTableOf spacers).tuple_map_6 = [] ∧
    ∀ r1 r2, findMatchingTuple (tupleTableOf spacers) r1 r2 = none := by
  have hc : (tupleTableOf spacers).spacer_count = spacerCountOf spacers := rfl
  rw [hc] at h4 h6
  refine ⟨?_, ?_, ?_⟩
  · show tupleMap4Of spacers = []
    rw [tupleMap4Of, if_neg h4]
  · show tupleMap6Of spacers = []
    rw [tupleMap6Of, if_neg h6]
  · intro r1 r2
    unfold findMatchingTuple
    rw [if_neg (hc ▸ h4), if_neg (hc ▸ h6)]

/-- Claim C6 witness: on the concrete 5-plex library the maps are empty
and a read pair classifies to nothing. -/
theorem tuple_index_other_plexity_silent_witness :
    (tupleTableOf fivePlexSpacers).tuple_map_4 = [] ∧
    findMatchingTuple (tupleTableOf fivePlexSpacers) "AACC".toList "GGTT".toList = none :=
  ⟨(tuple_index_other_plexity_silent fivePlexSpacers (by decide) (by decide)).1,
   (tuple_index_other_plexity_silent fivePlexSpacers (by decide) (by decide)).2.2
     "AACC".toList "GGTT".toList⟩

lemma first6SameCid_iff (l : List Spacer) : first6SameCid l = true ↔ 6 ≤ leadingRun l := by
  match l with
  | [] => simp [first6SameCid, leadingRun]
  | [s0] =>
    simp [first6SameCid, leadingRun, leadingRunAux]
  | [s0, s1] =>
    simp only [first6SameCid, leadingRun, leadingRunAux, Bool.false_eq_true, false_iff]
    split_ifs <;> omega
  | [s0, s1, s2] =>
    simp only [first6SameCid, leadingRun, leadingRunAux, Bool.false_eq_true, false_iff]
    split_ifs <;> omega
  | [s0, s1, s2, s3] =>
    simp only [first6SameCid, leadingRun, leadingRunAux, Bool.false_eq_true, false_iff]
    split_ifs <;> omega
  | [s0, s1, s2, s3, s4] =>
    simp only [first6SameCid, leadingRun, leadingRunAux, Bool.false_eq_true, false_iff]
    split_ifs <;> omega
  | s0 :: s1 :: s2 :: s3 :: s4 :: s5 :: rest =>
    simp only [first6SameCid, leadingRun, leadingRunAux, Bool.and_eq_true, beq_iff_eq]
    split_ifs <;> omega

lemma first4SameCid_iff (l : List Spacer) : first4SameCid l = true ↔ 4 ≤ leadingRun l := by
  match l with
  | [] => simp [first4SameCid, leadingRun]
  | [s0] =>
    simp [first4SameCid, leadingRun, leadingRunAux]
  | [s0, s1] =>
    simp only [first4SameCid, leadingRun, leadingRunAux, Bool.false_eq_true, false_iff]
    split_ifs <;> omega
  | [s0, s1, s2] =>
    simp only [first4SameCid, leadingRun, leadingRunAux, Bool.false_eq_true, false_iff]
    split_ifs <;> omega
  | s0 :: s1 :: s2 :: s3 :: rest =>
    simp only [first4SameCid, leadingRun, leadingRunAux, Bool.and_eq_true, beq_iff_eq]
    split_ifs <;> omega

lemma filterMap_guard_map {P : ℕ → Prop} [DecidablePred P] (g : ℕ → α) (l : List ℕ)
    (h : ∀ i ∈ l, P i) :
    l.filterMap (fun i => if P i then some (g i) else none) = l.map g := by
  induction l with
  | nil => rfl
  | cons a t ih =>
    rw [List.filterMap_cons, if_pos (h a (List.mem_cons_self a t))]
    simp only [List.map_cons]
    rw [ih (fun i hi => h i (List.mem_cons_of_mem a hi))]

lemma filterMap_guard_nil {P : ℕ → Prop} [DecidablePred P] (g : ℕ → α) (l : List ℕ)
    (h : ∀ i ∈ l, ¬ P i) :
    l.filterMap (fun i => if P i then some (g i) else none) = [] := by
  induction l with
  | nil => rfl
  | cons a t ih =>
    rw [List.filterMap_cons, if_neg (h a (List.mem_cons_self a t))]
    exact ih (fun i hi => h i (List.mem_cons_of_mem a hi))

/-- The enumerate-with-guard loop of `build_constructs` keeps exactly the
`len // n` full chunks, in ascending construct-id order. -/
lemma buildChunks_eq (spacers : List Spacer) (constants : List Constant) (n : ℕ)
    (hn : 0 < n) :
    buildChunks spacers constants n =
      (List.range (spacers.length / n)).map
        (fun cid => ⟨(spacers.drop (cid * n)).take n, constants, cid⟩) := by
  unfold buildChunks
  have hle : spacers.length / n ≤ (spacers.length + n - 1) / n :=
    Nat.div_le_div_right (by omega)
  obtain ⟨d, hd⟩ : ∃ d, (spacers.length + n - 1) / n = spacers.length / n + d :=
    ⟨_, (Nat.add_sub_cancel' hle).symm⟩
  rw [hd, List.range_add, List.filterMap_append]
  have h1 : (List.range (spacers.length / n)).filterMap
      (fun cid => if cid * n + n ≤ spacers.length then
        some (⟨(spacers.drop (cid * n)).take n, constants, cid⟩ : Construct) else none) =
      (List.range (spacers.length / n)).map
        (fun cid => ⟨(spacers.drop (cid * n)).take n, constants, cid⟩) := by
    apply filterMap_guard_map
    intro i hi
    have hi' : i + 1 ≤ spacers.length / n := List.mem_range.mp hi
    have hmul := (Nat.le_div_iff_mul_le hn).mp hi'
    rw [Nat.succ_mul] at hmul
    exact hmul
  have h2 : ((List.range d).map (fun x => spacers.length / n + x)).filterMap
      (fun cid => if cid * n + n ≤ spacers.length then
        some (⟨(spacers.drop (cid * n)).take n, constants, cid⟩ : Construct) else none) = [] := by
    apply filterMap_guard_nil
    intro i hi
    obtain ⟨x, hx, rfl⟩ := List.mem_map.mp hi
    intro hcon
    have hmul : (spacers.length / n + x + 1) * n ≤ spacers.length := by
      rw [Nat.succ_mul]
      exact hcon
    have := (Nat.le_div_iff_mul_le hn).mpr hmul
    omega
  rw [h1, h2, List.append_nil]

/-- Claim C2 (amended): `build_constructs` succeeds exactly when the
leading run of equal construct ids has length at least 4; it infers
plexity 6 when the run length is at least 6 and plexity 4 when the run
length is 4 or 5 (no other plexity, 3 or 5 through 10, is ever
inferred); no multiple-of-plexity check is made: the sorted list is cut
into `len // P` full chunks with ascending ids and leftover spacers are
silently dropped. -/
theorem build_constructs_run_inference (spacers : List Spacer) (constants : List Constant) :
    ((buildConstructs spacers constants).toOption = none ↔ leadingRun spacers < 4) ∧
    (6 ≤ leadingRun spacers →
      buildConstructs spacers constants = .ok ((List.range (spacers.length / 6)).map
        (fun cid => ⟨(spacers.drop (cid * 6)).take 6, constants, cid⟩))) ∧
    (4 ≤ leadingRun spacers → leadingRun spacers < 6 →
      buildConstructs spacers constants = .ok ((List.range (spacers.length / 4)).map
        (fun cid => ⟨(spacers.drop (cid * 4)).take 4, constants, cid⟩))) := by
  unfold buildConstructs
  by_cases h6 : first6SameCid spacers = true
  · rw [if_pos h6]
    have hr6 := (first6SameCid_iff spacers).mp h6
    refine ⟨iff_of_false (by simp [Except.toOption]) (by omega), ?_, ?_⟩
    · intro _
      rw [buildChunks_eq _ _ 6 (by norm_num)]
    · intro _ hlt
      exact absurd hr6 (by omega)
  · rw [if_neg h6]
    have hr6 : ¬ 6 ≤ leadingRun spacers := fun h => h6 ((first6SameCid_iff spacers).mpr h)
    by_cases h4 : first4SameCid spacers = true
    · rw [if_pos h4]
      have hr4 := (first4SameCid_iff spacers).mp h4
      refine ⟨iff_of_false (by simp [Except.toOption]) (by omega), ?_, ?_⟩
      · intro h
        exact absurd h hr6
      · intro _ _
        rw [buildChunks_eq _ _ 4 (by norm_num)]
    · rw [if_neg h4]
      have hr4 : ¬ 4 ≤ leadingRun spacers := fun h => h4 ((first4SameCid_iff spacers).mpr h)
      refine ⟨iff_of_true rfl (by omega), ?_, ?_⟩
      · intro h
        exact absurd h (by omega)
      · intro h _
        exact absurd h hr4

/-- Claim C2 witness: nine spacers with a leading run of four build two
constructs (the ninth spacer is dropped). -/
theorem build_constructs_run_inference_witness :
    buildConstructs nineSpacers scenarioAConstants =
      .ok ((List.range (nineSpacers.length / 4)).map
        (fun cid => ⟨(nineSpacers.drop (cid * 4)).take 4, scenarioAConstants, cid⟩)) :=
  (build_constructs_run_inference nineSpacers scenarioAConstants).2.2 (by decide) (by decide)

lemma buildSequence_window (cs : List Constant) (ss : List Spacer) (t : ℕ) :
    ∀ (a : ℕ), a + t ≤ cs.length → a + t ≤ ss.length →
    buildSequence ((cs.drop a).take t) ((ss.drop a).take t) =
      ((List.range t).map (fun i =>
        (cs.getD (a + i) default).sequence ++ (ss.getD (a + i) default).sequence)).flatten := by
  induction t with
  | zero =>
    intro a h1 h2
    simp [buildSequence]
  | succ t ih =>
    intro a h1 h2
    have ha1 : a < cs.length := by omega
    have ha2 : a < ss.length := by omega
    rw [List.drop_eq_getElem_cons ha1, List.drop_eq_getElem_cons ha2,
      List.take_succ_cons, List.take_succ_cons, buildSequence_cons,
      List.range_succ_eq_map, List.map_cons, List.flatten_cons]
    congr 1
    · simp only [Nat.add_zero]
      rw [List.getD_eq_getElem cs default ha1, List.getD_eq_getElem ss default ha2]
    · rw [List.map_map]
      have hcomp : ((fun i => (cs.getD (a + i) default).sequence ++
          (ss.getD (a + i) default).sequence) ∘ (· + 1)) =
          (fun i => (cs.getD ((a + 1) + i) default).sequence ++
            (ss.getD ((a + 1) + i) default).sequence) := by
        funext i
        have hidx : a + (i + 1) = (a + 1) + i := by omega
        simp only [Function.comp_apply, hidx]
      rw [hcomp]
      exact ih (a + 1) (by omega) (by omega)

lemma probeWindow_eq_take (c : Construct) (t : ℕ)
    (h1 : t ≤ c.constants.length) (h2 : t ≤ c.spacers.length) :
    buildSequence (c.constants.take t) (c.spacers.take t) = probeWindow c 0 t := by
  have h := buildSequence_window c.constants c.spacers t 0 (by omega) (by omega)
  rw [List.drop_zero, List.drop_zero] at h
  exact h

lemma probeWindow_eq_drop (c : Construct) (P t : ℕ)
    (hsp : c.spacers.length = P) (hco : c.constants.length = P) (ht : t ≤ P) :
    buildSequence (c.constants.drop (P - t)) (c.spacers.drop (P - t)) =
      probeWindow c (P - t) t := by
  have h := buildSequence_window c.constants c.spacers t (P - t) (by omega) (by omega)
  rw [List.take_of_length_le (by simp [hco]; omega),
    List.take_of_length_le (by simp [hsp]; omega)] at h
  exact h

/-- Claim C1 (amended): for plexity `P` between 3 and 10 the take count
is `T = P // 2` for `P ≥ 4` and `T = 2` for `P = 3` — that is, 3→2, 4→2,
5→2, 6→3, 7→3, 8→4, 9→4, 10→5; `get_r1_sequence` is the concatenation
`constants[0] + spacers[0] + … + constants[T-1] + spacers[T-1]`,
`get_r2_sequence` is the reverse complement of
`constants[P-T] + spacers[P-T] + … + constants[P-1] + spacers[P-1]`,
and each probe has length `T·(L_c + L_s)`. -/
theorem probe_derivation_take_count (c : Construct) (P Lc Ls : ℕ)
    (hsp : c.spacers.length = P) (hco : c.constants.length = P)
    (hP3 : 3 ≤ P) (hP10 : P ≤ 10)
    (hLs : ∀ s ∈ c.spacers, s.sequence.length = Ls)
    (hLc : ∀ k ∈ c.constants, k.sequence.length = Lc) :
    c.get_r1_sequence = probeWindow c 0 (if P = 3 then 2 else P / 2) ∧
    c.get_r2_sequence = reverseComplement
      (probeWindow c (P - (if P = 3 then 2 else P / 2)) (if P = 3 then 2 else P / 2)) ∧
    c.get_r1_sequence.length = (if P = 3 then 2 else P / 2) * (Lc + Ls) ∧
    c.get_r2_sequence.length = (if P = 3 then 2 else P / 2) * (Lc + Ls) := by
  have hTle : (if P = 3 then 2 else P / 2) ≤ P := by split_ifs <;> omega
  refine ⟨?_, ?_, get_r1_sequence_length c P Lc Ls hsp hco hLs hLc,
    get_r2_sequence_length c P Lc Ls hsp hco hLs hLc⟩
  · unfold Construct.get_r1_sequence
    rw [take_count_eq c P hsp]
    exact probeWindow_eq_take c _ (by omega) (by omega)
  · unfold Construct.get_r2_sequence Construct.r2_slices Construct.plexity takeLast
    rw [hsp, hco]
    congr 1
    by_cases h4 : P = 4
    · rw [if_pos h4]
      dsimp only
      rw [show (if P = 3 then 2 else P / 2) = 2 by subst h4; norm_num]
      exact probeWindow_eq_drop c P 2 hsp hco (by omega)
    · rw [if_neg h4]
      by_cases h6 : P = 6
      · rw [if_pos h6]
        dsimp only
        rw [show (if P = 3 then 2 else P / 2) = 3 by subst h6; norm_num]
        exact probeWindow_eq_drop c P 3 hsp hco (by omega)
      · rw [if_neg h6]
        by_cases h3 : P = 3
        · rw [if_pos h3]
          dsimp only
          rw [if_pos h3]
          exact probeWindow_eq_drop c P 2 hsp hco (by omega)
        · rw [if_neg h3]
          dsimp only
          rw [if_neg h3]
          exact probeWindow_eq_drop c P (P / 2) hsp hco (by omega)

/-- Claim C1, counterexample: on a 5-plex construct with constant length
1 and spacer length 2 the R1 probe is `AAACCC` of length 6 = 2·(1+2),
not the claimed 3·(1+2) = 9 (the claimed take count for P = 5 is
⌈(5+1)/2⌉ = 3, the code takes 5 // 2 = 2). -/
theorem take_count_five_plex_counterexample :
    Construct.get_r1_sequence fivePlexConstruct = "AAACCC".toList ∧
    (Construct.get_r1_sequence fivePlexConstruct).length = 2 * (1 + 2) ∧
    (Construct.get_r1_sequence fivePlexConstruct).length ≠ 3 * (1 + 2) := by
  decide

/-- Claim C1 witness: the amended probe derivation instantiated on the
concrete 5-plex construct. -/
theorem probe_derivation_take_count_witness :
    Construct.get_r1_sequence fivePlexConstruct =
      probeWindow fivePlexConstruct 0 (if 5 = 3 then 2 else 5 / 2) ∧
    Construct.get_r2_sequence fivePlexConstruct = reverseComplement
      (probeWindow fivePlexConstruct (5 - (if 5 = 3 then 2 else 5 / 2))
        (if 5 = 3 then 2 else 5 / 2)) ∧
    (Construct.get_r1_sequence fivePlexConstruct).length = (if 5 = 3 then 2 else 5 / 2) * (1 + 2) ∧
    (Construct.get_r2_sequence fivePlexConstruct).length = (if 5 = 3 then 2 else 5 / 2) * (1 + 2) :=
  probe_derivation_take_count fivePlexConstruct 5 1 2 (by decide) (by decide)
    (by decide) (by decide) (by decide) (by decide)

lemma parseSpacers_cons (row : List Str) (rest : List (List Str)) :
    parseSpacers (row :: rest) =
      if 3 ≤ row.length then
        match decNat? (row.getD 1 []), decNat? (row.getD 2 []) with
        | some cid, some vid =>
            (parseSpacers rest).map (fun l => ⟨row.getD 0 [], cid, vid⟩ :: l)
        | _, _ => .error "ValueError: invalid literal for int"
      else parseSpacers rest := rfl

lemma parseConstants_cons (row : List Str) (rest : List (List Str)) :
    parseConstants (row :: rest) =
      if 2 ≤ row.length then
        match decNat? (row.getD 1 []) with
        | some cid => (parseConstants rest).map (fun l => ⟨row.getD 0 [], cid⟩ :: l)
        | none => .error "ValueError: invalid literal for int"
      else parseConstants rest := rfl

lemma parseSpacers_filter (rows : List (List Str)) :
    parseSpacers rows = parseSpacers (rows.filter (fun r => 3 ≤ r.length)) := by
  induction rows with
  | nil => rfl
  | cons row rest ih =>
    by_cases h : 3 ≤ row.length
    · rw [List.filter_cons_of_pos (by simpa using h), parseSpacers_cons, parseSpacers_cons,
        if_pos h, if_pos h, ih]
    · rw [List.filter_cons_of_neg (by simpa using h), parseSpacers_cons, if_neg h, ih]

lemma parseConstants_filter (rows : List (List Str)) :
    parseConstants rows = parseConstants (rows.filter (fun r => 2 ≤ r.length)) := by
  induction rows with
  | nil => rfl
  | cons row rest ih =>
    by_cases h : 2 ≤ row.length
    · rw [List.filter_cons_of_pos (by simpa using h), parseConstants_cons, parseConstants_cons,
        if_pos h, if_pos h, ih]
    · rw [List.filter_cons_of_neg (by simpa using h), parseConstants_cons, if_neg h, ih]

/-- Claim C9, counterexample: a spacer (resp. constant) TSV containing a
row with fewer than the required fields parses successfully — the short
row is silently dropped, no `ConfigError` is signalled. -/
theorem malformed_row_counterexample :
    (parseSpacers [["AAAAAA".toList, "0".toList, "0".toList], ["CCCCCC".toList]]).toOption
      = some [⟨"AAAAAA".toList, 0, 0⟩] ∧
    (parseConstants [["ACAC".toList, "0".toList], ["CAGT".toList]]).toOption
      = some [⟨"ACAC".toList, 0⟩] := by
  decide

/-- Claim C9 (amended): rows with fewer than the required tab-separated
fields are silently skipped by both loaders — parsing is invariant under
removing them — while a wide-enough row whose id field is not a numeral
does raise a fatal error that aborts the load. -/
theorem short_rows_skipped (rows : List (List Str)) :
    parseSpacers rows = parseSpacers (rows.filter (fun r => 3 ≤ r.length)) ∧
    parseConstants rows = parseConstants (rows.filter (fun r => 2 ≤ r.length)) ∧
    parseSpacers (["ACGT".toList, "x".toList, "0".toList] :: rows) =
      .error "ValueError: invalid literal for int" := by
  exact ⟨parseSpacers_filter rows, parseConstants_filter rows, rfl⟩
